import Mathlib

/-!
Shallow embedding of the collection-and-normalization core of
`ps-ds-monitor.py` (class `SystemMonitor`), together with theorems settling
the frozen specification claims.

Python strings are modelled as `List Char`; the helper functions below model
the exact Python string operations the source uses (`str.strip`, `str.split`
with a separator / on whitespace / with maxsplit, `str.replace`,
`str.startswith`, substring containment, `int(...)` and `float(...)`
conversion on the numeral forms the parsed OS output can contain, and
`round(x, n)` as round-half-to-even on exact rationals).  Machine floats are
modelled by `ℚ`; all values the program manipulates are exactly
representable at the precision the claims exercise.
-/

namespace PsDs

/-- Python strings, modelled as lists of characters. -/
abbrev Str := List Char

/-- The whitespace characters recognised by Python's `str.strip()` /
`str.split()` (ASCII subset, which is what OS command output contains). -/
def pyIsSpace (c : Char) : Bool :=
  c == ' ' || c == '\t' || c == '\n' || c == '\r' || c == '\x0b' || c == '\x0c'

/-- Strip all leading and trailing characters satisfying `p`
(Python `str.strip(chars)`). -/
def stripP (p : Char → Bool) (s : Str) : Str :=
  ((s.dropWhile p).reverse.dropWhile p).reverse

/-- Python `str.strip()` (no argument: whitespace). -/
def pyStrip (s : Str) : Str := stripP pyIsSpace s

/-- Python `part.strip('"')` used on `tasklist` CSV fields. -/
def stripQuotes (s : Str) : Str := stripP (fun c => c == '"') s

/-- Python `stat_data[1].strip('()')` used on the `/proc/<pid>/stat` name. -/
def stripParens (s : Str) : Str := stripP (fun c => c == '(' || c == ')') s

/-- Worker for splitting on a single separator character. -/
def splitChAux (sep : Char) : Str → Str → List Str
  | [], acc => [acc.reverse]
  | c :: rest, acc =>
    if c == sep then acc.reverse :: splitChAux sep rest []
    else splitChAux sep rest (c :: acc)

/-- Python `s.split('\n')`. -/
def splitNl (s : Str) : List Str := splitChAux '\n' s []

/-- Python `s.split('=')` (used on `wmic` `key=value` output). -/
def splitEq (s : Str) : List Str := splitChAux '=' s []

/-- Python `line.split('","')` as used on `tasklist /fo csv` rows: split on
the three-character separator `"`, `,`, `"` left to right. -/
def splitQcqAux : Str → Str → List Str
  | [], acc => [acc.reverse]
  | '"' :: ',' :: '"' :: rest, acc => acc.reverse :: splitQcqAux rest []
  | c :: rest, acc => splitQcqAux rest (c :: acc)

/-- Python `line.split('","')`. -/
def splitQcq (s : Str) : List Str := splitQcqAux s []

/-- Worker for Python whitespace splitting `s.split()` (no separator):
runs of whitespace separate words, empty words are never produced. -/
def splitWsAux : Str → Str → List Str
  | [], acc => if acc.isEmpty then [] else [acc.reverse]
  | c :: rest, acc =>
    if pyIsSpace c then
      if acc.isEmpty then splitWsAux rest []
      else acc.reverse :: splitWsAux rest []
    else splitWsAux rest (c :: acc)

/-- Python `s.split()` (split on whitespace runs). -/
def pySplitWs (s : Str) : List Str := splitWsAux s []

/-- Worker for Python `s.split(None, maxsplit)`: the first argument counts
the splits still allowed; once it reaches `0`, the remainder of the string
(leading whitespace removed) becomes the final element verbatim. -/
def splitWsMaxAux : Nat → Str → Str → List Str
  | _, [], acc => if acc.isEmpty then [] else [acc.reverse]
  | 0, c :: rest, acc =>
    if acc.isEmpty then
      if pyIsSpace c then splitWsMaxAux 0 rest []
      else splitWsMaxAux 0 rest [c]
    else splitWsMaxAux 0 rest (c :: acc)
  | n+1, c :: rest, acc =>
    if pyIsSpace c then
      if acc.isEmpty then splitWsMaxAux (n+1) rest []
      else acc.reverse :: splitWsMaxAux n rest []
    else splitWsMaxAux (n+1) rest (c :: acc)

/-- Python `s.split(None, n)`. -/
def pySplitWsMax (n : Nat) (s : Str) : List Str := splitWsMaxAux n s []

/-- Python `s.startswith(pat)` (first argument is the pattern). -/
def startsWithL : Str → Str → Bool
  | [], _ => true
  | _ :: _, [] => false
  | p :: ps, c :: cs => p == c && startsWithL ps cs

/-- Python `pat in s` (substring containment, first argument the pattern). -/
def containsSubL (pat : Str) : Str → Bool
  | [] => startsWithL pat []
  | c :: rest => startsWithL pat (c :: rest) || containsSubL pat rest

/-- Python `s.replace(',', '')` (removes every comma). -/
def removeCommas (s : Str) : Str := s.filter (fun c => !(c == ','))

/-- Python `s.replace(' K', '')`: remove every (non-overlapping, leftmost)
occurrence of the two-character substring. -/
def removeSpaceK : Str → Str
  | [] => []
  | ' ' :: 'K' :: rest => removeSpaceK rest
  | c :: rest => c :: removeSpaceK rest

/-- Numeric value of a digit string (accumulator form). -/
def digitsVal : Str → Nat → Nat
  | [], acc => acc
  | c :: rest, acc => digitsVal rest (acc * 10 + (c.toNat - '0'.toNat))

/-- A non-empty all-digit string, as required by Python `int(...)`
after the optional sign. -/
def digitsToNat? (s : Str) : Option Nat :=
  if !s.isEmpty && s.all Char.isDigit then some (digitsVal s 0) else none

/-- Python `int(s)` on a string: strip whitespace, optional sign, digits;
anything else raises `ValueError` (modelled as `none`).  (Underscored
numerals and non-ASCII digits, which OS process tables never emit, are not
modelled.) -/
def pyInt? (s : Str) : Option Int :=
  match pyStrip s with
  | '+' :: rest => (digitsToNat? rest).map (fun n => (n : Int))
  | '-' :: rest => (digitsToNat? rest).map (fun n => -(n : Int))
  | rest => (digitsToNat? rest).map (fun n => (n : Int))

/-- Exact rational division, implemented through `Rat.divInt` so that it is
kernel-reducible (the `Rat.mul`/`Rat.inv` behind `/` are `@[irreducible]`);
`qDiv_eq_div` below proves it equal to ordinary division on `ℚ`. -/
def qDiv (a b : ℚ) : ℚ := Rat.divInt (a.num * (b.den : Int)) ((a.den : Int) * b.num)

theorem qDiv_eq_div (a b : ℚ) : qDiv a b = a / b := by
  rw [qDiv, Rat.divInt_eq_div]
  rcases eq_or_ne b 0 with rfl | hb
  · simp
  · have hbn : (b.num : ℚ) ≠ 0 := by
      exact_mod_cast Rat.num_ne_zero.mpr hb
    have hadQ : ((a.den : ℕ) : ℚ) ≠ 0 := by
      exact_mod_cast a.den_nz
    have hbdQ : ((b.den : ℕ) : ℚ) ≠ 0 := by
      exact_mod_cast b.den_nz
    have ha : (a.num : ℚ) = a * ((a.den : ℕ) : ℚ) :=
      (div_eq_iff hadQ).mp (Rat.num_div_den a)
    have hbq : (b.num : ℚ) = b * ((b.den : ℕ) : ℚ) :=
      (div_eq_iff hbdQ).mp (Rat.num_div_den b)
    push_cast
    rw [div_eq_div_iff (mul_ne_zero hadQ hbn) hb, ha, hbq]
    ring

/-- Fractional part value of a digit string: `digits / 10 ^ length`,
built directly with `Rat.divInt` (exact, kernel-reducible). -/
def fracVal (s : Str) : ℚ := Rat.divInt (digitsVal s 0 : Int) ((10 : Int) ^ s.length)

/-- Unsigned body of a Python float literal: `ddd`, `ddd.`, `.ddd` or
`ddd.ddd`, valued exactly as `intpart + fracdigits / 10 ^ #fracdigits`. -/
def pyFloatBody? (s : Str) : Option ℚ :=
  let ip := s.takeWhile Char.isDigit
  match s.dropWhile Char.isDigit with
  | [] => if ip.isEmpty then none else some (digitsVal ip 0 : ℚ)
  | '.' :: fr =>
    if fr.all Char.isDigit && (!ip.isEmpty || !fr.isEmpty) then
      some (Rat.divInt ((digitsVal ip 0 : Int) * 10 ^ fr.length + (digitsVal fr 0 : Int)) ((10 : Int) ^ fr.length))
    else none
  | _ => none

/-- Python `float(s)` on a string: strip whitespace, optional sign, decimal
numeral; anything else raises `ValueError` (modelled as `none`).  (Exponent
forms and `inf`/`nan`, which the parsed OS tables never contain, are not
modelled.) -/
def pyFloat? (s : Str) : Option ℚ :=
  match pyStrip s with
  | '+' :: rest => pyFloatBody? rest
  | '-' :: rest => (pyFloatBody? rest).map Neg.neg
  | rest => pyFloatBody? rest

/-- Round-half-to-even of a rational to the nearest integer, as Python
`round` does, computed on the numerator/denominator: with
`f = ⌊q⌋ = num.fdiv den` and `r2 = 2·(num − f·den) = 2·den·(q − f)`, the
fractional part of `q` is `< 1/2` iff `r2 < den`, `> 1/2` iff `den < r2`,
and on a tie the even neighbour is chosen. -/
def roundHalfEven (q : ℚ) : Int :=
  let f := q.num.fdiv (q.den : Int)
  let r2 := 2 * (q.num - f * (q.den : Int))
  if r2 < (q.den : Int) then f
  else if (q.den : Int) < r2 then f + 1
  else if f % 2 = 0 then f else f + 1

/-- Python `round(x, nd)` on the exact rational model:
`roundHalfEven (x·10^nd) / 10^nd`. -/
def pyRound (nd : Nat) (x : ℚ) : ℚ :=
  Rat.divInt (roundHalfEven (Rat.divInt (x.num * (10 : Int) ^ nd) (x.den : Int))) ((10 : Int) ^ nd)

/-- Python `' '.join(parts)`. -/
def joinSpace : List Str → Str
  | [] => []
  | [s] => s
  | s :: rest => s ++ ' ' :: joinSpace rest

/-!
## Windows command-table backend (`_get_processes_windows`)

`tasklist /fo csv` output is parsed row by row.  Each row is split on the
separator `","`, each field stripped of `"`; rows with fewer than five
fields are ignored; the memory field (`parts[4]`) is cleaned of commas and
of `' K'` and converted with `float` — on `ValueError` the memory defaults
to `0.0` MB; then the record is appended with `int(parts[1])` as pid.
`int(parts[1])` is *outside* any per-row handler: if it raises, the
exception lands in the function-level `except Exception` and the rows
collected so far are returned, the remaining rows never being parsed.
-/

/-- Record built by the Windows command-table backend (the keys of the dict
appended in `_get_processes_windows`). -/
structure WinRec where
  pid : Int
  name : Str
  cpu_percent : ℚ
  memory_percent : ℚ
  memory_mb : ℚ
  status : Str
  username : Str
deriving DecidableEq

/-- Fields of a `tasklist` CSV row:
`[part.strip('"') for part in line.split('","')]`. -/
def winParts (line : Str) : List Str := (splitQcq line).map stripQuotes

/-- The memory-string cleanup
`parts[4].replace(',', '').replace(' K', '')`. -/
def cleanMem (s : Str) : Str := removeSpaceK (removeCommas s)

/-- Outcome of one `tasklist` row: too few fields are ignored, a pid that
fails `int` conversion raises out of the loop, otherwise a record is
emitted. -/
inductive WinLineResult where
  | skip
  | abort
  | emit (r : WinRec)
deriving DecidableEq

/-- One iteration of the row loop of `_get_processes_windows`. -/
def winParseLine (line : Str) : WinLineResult :=
  let parts := winParts line
  if 5 ≤ parts.length then
    let memory_mb : ℚ :=
      match pyFloat? (cleanMem (parts.getD 4 [])) with
      | some memory_kb => pyRound 1 (qDiv memory_kb 1024)
      | none => 0
    match pyInt? (parts.getD 1 []) with
    | none => .abort
    | some pid =>
      .emit { pid := pid
            , name := parts.getD 0 []
            , cpu_percent := 0
            , memory_percent := 0
            , memory_mb := memory_mb
            , status := if 3 < parts.length then parts.getD 3 [] else "unknown".data
            , username := "unknown".data }
  else .skip

/-- The row loop of `_get_processes_windows` over the post-header lines:
an abort returns the records accumulated so far. -/
def winParseLines : List Str → List WinRec
  | [] => []
  | line :: rest =>
    match winParseLine line with
    | .skip => winParseLines rest
    | .abort => []
    | .emit r => r :: winParseLines rest

/-- `_get_processes_windows` as a function of the `tasklist` standard
output: `result.stdout.strip().split('\n')[1:]` then the row loop. -/
def get_processes_windows (stdout : Str) : List WinRec :=
  winParseLines ((splitNl (pyStrip stdout)).drop 1)

/-!
## Unix `ps` command backend (`_get_processes_ps`)

`ps axo pid,comm,pcpu,pmem,stat,user` output: skip the header, split each
line with `line.split(None, 5)`, require at least five fields, convert
pid/%cpu/%mem; a `ValueError` skips the row.  The resulting list is
returned in row order — this backend performs no sort.
-/

/-- Record built by the `ps` command backend. -/
structure PsRec where
  pid : Int
  name : Str
  cpu_percent : ℚ
  memory_percent : ℚ
  status : Str
  username : Str
deriving DecidableEq

/-- One row of `ps` output (`None` models the `ValueError → continue` and
the field-count guard). -/
def psParseLine (line : Str) : Option PsRec :=
  let parts := pySplitWsMax 5 line
  if 5 ≤ parts.length then
    match pyInt? (parts.getD 0 []), pyFloat? (parts.getD 2 []), pyFloat? (parts.getD 3 []) with
    | some pid, some cpu, some mem =>
      some { pid := pid
           , name := parts.getD 1 []
           , cpu_percent := cpu
           , memory_percent := mem
           , status := parts.getD 4 []
           , username := if 5 < parts.length then parts.getD 5 [] else "unknown".data }
    | _, _, _ => none
  else none

/-- `_get_processes_ps` as a function of the `ps` standard output. -/
def get_processes_ps (stdout : Str) : List PsRec :=
  ((splitNl (pyStrip stdout)).drop 1).filterMap psParseLine

/-!
## Linux kernel-filesystem backend (`_get_processes_proc`)

For each entry of `/proc` whose name is all digits, the backend reads
`/proc/<pid>/stat` (whitespace-split; field 1 stripped of parentheses is
the name, field 2 is the state letter) and scans `/proc/<pid>/status` for
the first `VmRSS:` line, whose second whitespace-separated token is the
resident set in kB.  Any `OSError`/`ValueError`/`IndexError` for one entry
skips that entry.  CPU% and memory% are left at `0.0`.
-/

/-- Record built by the kernel-filesystem backend. -/
structure ProcRec where
  pid : Int
  name : Str
  cpu_percent : ℚ
  memory_percent : ℚ
  memory_kb : Int
  status : Str
  username : Str
deriving DecidableEq

/-- The resident memory of a `ProcRec` in bytes: the backend stores the
`VmRSS:` figure, which the kernel reports in kB (1 kB = 1024 bytes). -/
def residentBytes (r : ProcRec) : Int := r.memory_kb * 1024

/-- The `VmRSS:` scan over the lines of `/proc/<pid>/status`:
`some none` = no matching line (memory stays 0), `some (some kb)` = parsed
value, `none` = `ValueError`/`IndexError` raised (the entry is skipped). -/
def vmRssScan : List Str → Option (Option Int)
  | [] => some none
  | line :: rest =>
    if startsWithL "VmRSS:".data line then
      match (pySplitWs line).getD 1 [] with
      | [] => none
      | tok => match pyInt? tok with
        | none => none
        | some kb => some (some kb)
    else vmRssScan rest

/-- One `/proc` directory entry: its name, the contents of its `stat` file
(`none` = the file does not exist) and of its `status` file (`none` = the
file does not exist). -/
structure ProcEntry where
  dirName : Str
  statContents : Option Str
  statusContents : Option Str
deriving DecidableEq

/-- One iteration of the `/proc` loop: `none` models `continue` (non-digit
name, missing stat file, short stat data, or a failing `VmRSS:` parse). -/
def procParseEntry (e : ProcEntry) : Option ProcRec :=
  if !e.dirName.isEmpty && e.dirName.all Char.isDigit then
    match pyInt? e.dirName with
    | none => none
    | some pid =>
      match e.statContents with
      | none => none
      | some stat =>
        let stat_data := pySplitWs stat
        match stat_data.get? 1, stat_data.get? 2 with
        | some rawName, some status =>
          let memScan : Option (Option Int) :=
            match e.statusContents with
            | none => some none
            | some sc => vmRssScan (splitNl sc)
          match memScan with
          | none => none
          | some kb? =>
            some { pid := pid
                 , name := stripParens rawName
                 , cpu_percent := 0
                 , memory_percent := 0
                 , memory_kb := kb?.getD 0
                 , status := status
                 , username := "unknown".data }
        | _, _ => none
  else none

/-- `_get_processes_proc` over the listing of `/proc`. -/
def get_processes_proc (entries : List ProcEntry) : List ProcRec :=
  entries.filterMap procParseEntry

/-!
## Rich (psutil) backend (`_get_processes_psutil`)

`psutil.process_iter` supplies one raw info dictionary per live process;
a process that raises `NoSuchProcess`/`AccessDenied`/`ZombieProcess` while
being read is skipped.  Fields are normalised with Python truthiness
defaults (`x or default`), CPU% and memory% are rounded to one decimal,
and the final list is sorted by `cpu_percent` descending with Python's
stable `sorted(..., reverse=True)`.
-/

/-- The raw data psutil supplies for one process.  `none` in an optional
field models a `None` attribute value; `ok = false` models the per-process
exceptions that make the loop `continue`. -/
structure PsutilRaw where
  ok : Bool
  pid : Int
  name : Option Str
  cpu_percent_info : Option ℚ
  cpu_percent_call : ℚ
  memory_percent : Option ℚ
  status : Option Str
  username : Option Str
  num_threads : Option Int
  memory_info : Option (Int × Int)
  nice : Option Int
  create_time : ℚ
  cmdline : List Str
deriving DecidableEq

/-- Record built by the rich backend (the `process_info` dict). -/
structure PsutilRec where
  pid : Int
  name : Str
  cpu_percent : ℚ
  memory_percent : ℚ
  status : Str
  username : Str
  num_threads : Option Int
  rss : Int
  vms : Int
  nice : Option Int
  create_time : ℚ
  cmdline : Str
deriving DecidableEq

/-- Python `x or d` for an optional string (both `None` and the empty
string are falsy). -/
def orElseStr (x : Option Str) (d : Str) : Str :=
  match x with
  | none => d
  | some s => if s.isEmpty then d else s

/-- The per-process body of `_get_processes_psutil`. -/
def psutilRecordOf (r : PsutilRaw) : PsutilRec :=
  let cpu_raw : ℚ :=
    match r.cpu_percent_info with
    | none => r.cpu_percent_call
    | some v => if v = 0 then r.cpu_percent_call else v
  let rss : Int := match r.memory_info with | none => 0 | some m => m.1
  let vms : Int := match r.memory_info with | none => 0 | some m => m.2
  { pid := r.pid
  , name := orElseStr r.name "Unknown".data
  , cpu_percent := if cpu_raw = 0 then 0 else pyRound 1 cpu_raw
  , memory_percent := pyRound 1 ((r.memory_percent.getD 0))
  , status := orElseStr r.status "unknown".data
  , username := orElseStr r.username "unknown".data
  , num_threads := r.num_threads
  , rss := rss
  , vms := vms
  , nice := r.nice
  , create_time := r.create_time
  , cmdline := joinSpace r.cmdline }

/-- The unsorted record list accumulated by the enumeration loop. -/
def psutilRecords (raws : List PsutilRaw) : List PsutilRec :=
  raws.filterMap (fun r => if r.ok then some (psutilRecordOf r) else none)

/-- Python's stable `sorted(..., key=cpu_percent, reverse=True)`, modelled
as a stable insertion sort: a record is inserted before the first existing
record whose key is `≤` its own, so records inserted earlier (i.e. later in
the input, since insertion folds from the right) stay behind equal keys. -/
def insertByCpu (r : PsutilRec) : List PsutilRec → List PsutilRec
  | [] => [r]
  | x :: xs =>
    if x.cpu_percent ≤ r.cpu_percent then r :: x :: xs
    else x :: insertByCpu r xs

/-- Stable descending sort by `cpu_percent`. -/
def sortByCpuDesc : List PsutilRec → List PsutilRec
  | [] => []
  | r :: rs => insertByCpu r (sortByCpuDesc rs)

/-- `_get_processes_psutil` as a function of the raw enumeration. -/
def get_processes_psutil (raws : List PsutilRaw) : List PsutilRec :=
  sortByCpuDesc (psutilRecords raws)

/-!
## Pager (`display_process_status`)

State: `current_page`, 0-based.  Each render shows
`processes[current_page*page_size : current_page*page_size+page_size]`, a
`Page current+1/⌈total/page_size⌉` label and two counts taken over the
*whole* list.  Navigation: `n` advances only while `end_idx < total`, `p`
goes back only at `current_page > 0`, `f` jumps to 0, `l` jumps to
`(total-1) // page_size`, anything else leaves the page unchanged
(`q` additionally ends the loop).
-/

/-- Navigation commands of the paging loop. -/
inductive NavCmd where
  | next
  | previous
  | first
  | last
  | other
deriving DecidableEq

/-- One navigation step of `display_process_status` on the current page
index, given the total record count and the page size. -/
def pagerStep (total page_size : Nat) (cur : Nat) : NavCmd → Nat
  | .next => if cur * page_size + page_size < total then cur + 1 else cur
  | .previous => if 0 < cur then cur - 1 else cur
  | .first => 0
  | .last => (total - 1) / page_size
  | .other => cur

/-- The 1-based page count shown in the header:
`(total_processes + page_size - 1) // page_size`. -/
def pageCount (total page_size : Nat) : Nat :=
  (total + page_size - 1) / page_size

/-- The record shape the display layer reads (`p['cpu_percent']`,
`p.get('memory_percent', 0.0)`). -/
structure DispRec where
  cpu_percent : ℚ
  memory_percent : ℚ
deriving DecidableEq

/-- What one iteration of the display loop computes before reading input. -/
structure PageView where
  visible : List DispRec
  pageNumber : Nat
  pages : Nat
  totalCount : Nat
  cpuIntensive : Nat
  memIntensive : Nat
deriving DecidableEq

/-- One render of `display_process_status`: the visible slice
`processes[start_idx:end_idx]` and the footer statistics, the latter two
computed by `sum(1 for p in processes if ...)` over the whole list. -/
def renderPage (processes : List DispRec) (page_size current_page : Nat) : PageView :=
  let start_idx := current_page * page_size
  { visible := (processes.drop start_idx).take page_size
  , pageNumber := current_page + 1
  , pages := pageCount processes.length page_size
  , totalCount := processes.length
  , cpuIntensive := processes.countP (fun p => decide ((10 : ℚ) < p.cpu_percent))
  , memIntensive := processes.countP (fun p => decide ((10 : ℚ) < p.memory_percent)) }

/-!
## Rich system collector (`_get_system_info_psutil`)

Pure normalisation of the raw figures psutil supplies: byte totals are
divided by `1024³` and rounded to 2 decimals, the process-status histogram
is a `defaultdict(int)` filled in enumeration order (a per-process
exception skips that process), everything else is passed through.
-/

/-- The raw data psutil supplies for one system snapshot (the formatted
boot-time string stands for `time.strftime` applied to `psutil.boot_time()`,
which is part of the raw backend supply). -/
structure SysRaw where
  cpu_count : Option Nat
  cpu_count_logical : Option Nat
  cpu_percent : ℚ
  mem_total : Nat
  mem_used : Nat
  mem_percent : ℚ
  swap_total : Nat
  swap_used : Nat
  swap_percent : ℚ
  pids : List Int
  iter_statuses : List (Option Str)
  boot_time_str : Str
  system : Str
  platformStr : Str
  architecture : Str
deriving DecidableEq

/-- The snapshot dictionary `_get_system_info_psutil` returns (this backend
populates every key). -/
structure SysSnapshot where
  cpu_cores_physical : Option Nat
  cpu_cores_logical : Option Nat
  cpu_percent : ℚ
  memory_total_gb : ℚ
  memory_used_gb : ℚ
  memory_percent : ℚ
  swap_total_gb : ℚ
  swap_used_gb : ℚ
  swap_percent : ℚ
  process_count : Nat
  process_status_counts : List (Str × Nat)
  boot_time : Str
  system : Str
  platformStr : Str
  architecture : Str
deriving DecidableEq

/-- `defaultdict(int)` increment, keeping Python dict insertion order. -/
def bumpCount (k : Str) : List (Str × Nat) → List (Str × Nat)
  | [] => [(k, 1)]
  | (k', n) :: rest =>
    if k' = k then (k', n + 1) :: rest else (k', n) :: bumpCount k rest

/-- The status histogram loop (`None` = the per-process exception that
makes the loop `continue`). -/
def statusHistogram (statuses : List (Option Str)) : List (Str × Nat) :=
  statuses.foldl (fun acc s? => match s? with | none => acc | some s => bumpCount s acc) []

/-- `_get_system_info_psutil` as a function of the raw backend data. -/
def get_system_info_psutil (r : SysRaw) : SysSnapshot :=
  { cpu_cores_physical := r.cpu_count
  , cpu_cores_logical := r.cpu_count_logical
  , cpu_percent := r.cpu_percent
  , memory_total_gb := pyRound 2 (qDiv (r.mem_total : ℚ) (((1024 : Int) ^ 3 : Int) : ℚ))
  , memory_used_gb := pyRound 2 (qDiv (r.mem_used : ℚ) (((1024 : Int) ^ 3 : Int) : ℚ))
  , memory_percent := r.mem_percent
  , swap_total_gb := pyRound 2 (qDiv (r.swap_total : ℚ) (((1024 : Int) ^ 3 : Int) : ℚ))
  , swap_used_gb := pyRound 2 (qDiv (r.swap_used : ℚ) (((1024 : Int) ^ 3 : Int) : ℚ))
  , swap_percent := r.swap_percent
  , process_count := r.pids.length
  , process_status_counts := statusHistogram r.iter_statuses
  , boot_time := r.boot_time_str
  , system := r.system
  , platformStr := r.platformStr
  , architecture := r.architecture }

/-!
## Fallback system collector (`_get_system_info_fallback`)

Without psutil, the snapshot starts from the platform strings and
`os.cpu_count() or 'unknown'`, then merges OS-specific optional fields:
- Linux: `MemTotal:`/`MemAvailable:` lines of `/proc/meminfo` (kB → GB,
  rounded to 2 decimals; only `OSError` is caught, so a malformed value
  propagates `ValueError`/`IndexError` out of the call), and the first
  three whitespace tokens of `/proc/loadavg` as floats (again only
  `OSError` is caught).
- macOS: `vm_stat` is invoked; return code 0 records only
  `vm_stat_available = True`.  A missing command raises uncaught.
- Windows: `wmic ... TotalPhysicalMemory /value`; on return code 0 each
  line containing `TotalPhysicalMemory=` is parsed, bytes → GB rounded to
  2 decimals; `ValueError` is caught (keeping whatever was stored before),
  a missing command raises uncaught.
An uncaught exception is modelled as an overall `none`.
-/

/-- The branch taken on `self.system`. -/
inductive SysKind where
  | linux
  | darwin
  | windows
  | other
deriving DecidableEq

/-- The value of the `cpu_cores_logical` key in the fallback snapshot:
`os.cpu_count() or 'unknown'` is an integer or the *string* `'unknown'`. -/
inductive CpuCoresVal where
  | count (n : Nat)
  | unknownTag
deriving DecidableEq

/-- The raw environment of `_get_system_info_fallback`: platform strings,
`os.cpu_count()`, and per-OS inputs (`none` = the pseudo-file is unreadable
(`OSError`) resp. the external command cannot be spawned). -/
structure FallbackRaw where
  system : Str
  platformStr : Str
  architecture : Str
  kind : SysKind
  os_cpu_count : Option Nat
  meminfo : Option Str
  loadavg : Option Str
  vm_stat_rc : Option Int
  wmic : Option (Int × Str)
deriving DecidableEq

/-- The fallback snapshot: every field the backend cannot fill stays
`none` (absent key). -/
structure FallbackSnapshot where
  system : Str
  platformStr : Str
  architecture : Str
  cpu_cores_logical : CpuCoresVal
  memory_total_gb : Option ℚ := none
  memory_available_gb : Option ℚ := none
  load_average : Option (List ℚ) := none
  vm_stat_available : Option Bool := none
deriving DecidableEq

/-- The `/proc/meminfo` line loop of `_get_linux_system_info`: state is the
pair of optional GB figures; a `MemTotal:`/`MemAvailable:` line updates its
entry via `int(line.split()[1])` — a missing or non-numeric token raises
(outer `none`), since only `OSError` is caught there. -/
def linuxMemInfoLoop : List Str → Option ℚ × Option ℚ → Option (Option ℚ × Option ℚ)
  | [], acc => some acc
  | line :: rest, acc =>
    if startsWithL "MemTotal:".data line then
      match (pySplitWs line).getD 1 [] with
      | [] => none
      | tok => match pyInt? tok with
        | none => none
        | some kb => linuxMemInfoLoop rest (some (pyRound 2 (qDiv (kb : ℚ) (((1024 : Int) ^ 2 : Int) : ℚ))), acc.2)
    else if startsWithL "MemAvailable:".data line then
      match (pySplitWs line).getD 1 [] with
      | [] => none
      | tok => match pyInt? tok with
        | none => none
        | some kb => linuxMemInfoLoop rest (acc.1, some (pyRound 2 (qDiv (kb : ℚ) (((1024 : Int) ^ 2 : Int) : ℚ))))
    else linuxMemInfoLoop rest acc

/-- The `/proc/loadavg` parse: first three whitespace tokens as floats;
a `ValueError` propagates (outer `none`). -/
def linuxLoadAvg (contents : Str) : Option (List ℚ) :=
  ((pySplitWs contents).take 3).mapM pyFloat?

/-- The `wmic` output loop of `_get_windows_system_info`: a line containing
`TotalPhysicalMemory=` is split on `=`; `int` of field 1 updates the
figure; on `ValueError` the loop is abandoned and the current state kept
(the surrounding `except (CalledProcessError, ValueError)` swallows it);
a missing field 1 would be an uncaught `IndexError` (outer `none`). -/
def wmicLoop : List Str → Option ℚ → Option (Option ℚ)
  | [], acc => some acc
  | line :: rest, acc =>
    if containsSubL "TotalPhysicalMemory=".data line then
      match (splitEq line).get? 1 with
      | none => none
      | some tok => match pyInt? tok with
        | none => some acc
        | some b => wmicLoop rest (some (pyRound 2 (qDiv (b : ℚ) (((1024 : Int) ^ 3 : Int) : ℚ))))
    else wmicLoop rest acc

/-- `_get_system_info_fallback` as a function of its raw environment;
`none` models an exception escaping the call. -/
def get_system_info_fallback (r : FallbackRaw) : Option FallbackSnapshot :=
  let base : FallbackSnapshot :=
    { system := r.system
    , platformStr := r.platformStr
    , architecture := r.architecture
    , cpu_cores_logical :=
        match r.os_cpu_count with
        | none => .unknownTag
        | some n => if n = 0 then .unknownTag else .count n }
  match r.kind with
  | .linux =>
    let afterMem : Option FallbackSnapshot :=
      match r.meminfo with
      | none => some base
      | some txt =>
        match linuxMemInfoLoop (splitNl txt) (none, none) with
        | none => none
        | some (mt, ma) => some { base with memory_total_gb := mt, memory_available_gb := ma }
    match afterMem with
    | none => none
    | some s1 =>
      match r.loadavg with
      | none => some s1
      | some txt =>
        match linuxLoadAvg txt with
        | none => none
        | some l => some { s1 with load_average := some l }
  | .darwin =>
    match r.vm_stat_rc with
    | none => none
    | some rc =>
      if rc = 0 then some { base with vm_stat_available := some true } else some base
  | .windows =>
    match r.wmic with
    | none => none
    | some (rc, out) =>
      if rc = 0 then
        match wmicLoop (splitNl out) none with
        | none => none
        | some mt => some { base with memory_total_gb := mt }
      else some base
  | .other => some base

/-!
## Supporting lemmas
-/

theorem mem_insertByCpu {r y : PsutilRec} {l : List PsutilRec} :
    y ∈ insertByCpu r l ↔ y = r ∨ y ∈ l := by
  induction l with
  | nil => simp [insertByCpu]
  | cons x xs ih =>
    by_cases h : x.cpu_percent ≤ r.cpu_percent
    · simp [insertByCpu, h]
    · simp only [insertByCpu, if_neg h, List.mem_cons, ih]
      tauto

theorem pairwise_insertByCpu {r : PsutilRec} {l : List PsutilRec}
    (h : l.Pairwise (fun a b => b.cpu_percent ≤ a.cpu_percent)) :
    (insertByCpu r l).Pairwise (fun a b => b.cpu_percent ≤ a.cpu_percent) := by
  induction l with
  | nil => simp [insertByCpu]
  | cons x xs ih =>
    rcases List.pairwise_cons.mp h with ⟨hx, hxs⟩
    by_cases hle : x.cpu_percent ≤ r.cpu_percent
    · rw [insertByCpu, if_pos hle]
      refine List.pairwise_cons.mpr ⟨?_, h⟩
      intro y hy
      rcases List.mem_cons.mp hy with rfl | hy'
      · exact hle
      · exact le_trans (hx y hy') hle
    · rw [insertByCpu, if_neg hle]
      refine List.pairwise_cons.mpr ⟨?_, ih hxs⟩
      intro y hy
      rcases mem_insertByCpu.mp hy with rfl | hy'
      · exact le_of_lt (lt_of_not_le hle)
      · exact hx y hy'

theorem pairwise_sortByCpuDesc (l : List PsutilRec) :
    (sortByCpuDesc l).Pairwise (fun a b => b.cpu_percent ≤ a.cpu_percent) := by
  induction l with
  | nil => exact List.Pairwise.nil
  | cons x xs ih => exact pairwise_insertByCpu ih

theorem filter_insertByCpu (q : ℚ) (r : PsutilRec) (l : List PsutilRec) :
    (insertByCpu r l).filter (fun x => decide (x.cpu_percent = q)) =
      if r.cpu_percent = q then r :: l.filter (fun x => decide (x.cpu_percent = q))
      else l.filter (fun x => decide (x.cpu_percent = q)) := by
  induction l with
  | nil => simp [insertByCpu, List.filter_cons]
  | cons x xs ih =>
    by_cases hle : x.cpu_percent ≤ r.cpu_percent
    · rw [insertByCpu, if_pos hle]
      simp [List.filter_cons]
    · rw [insertByCpu, if_neg hle]
      by_cases h : r.cpu_percent = q
      · have hx : ¬ x.cpu_percent = q := fun hxq => hle (le_of_eq (hxq.trans h.symm))
        simp [List.filter_cons, ih, h, hx]
      · simp only [List.filter_cons, ih, if_neg h]

theorem filter_sortByCpuDesc (q : ℚ) (l : List PsutilRec) :
    (sortByCpuDesc l).filter (fun x => decide (x.cpu_percent = q)) =
      l.filter (fun x => decide (x.cpu_percent = q)) := by
  induction l with
  | nil => rfl
  | cons x xs ih =>
    rw [sortByCpuDesc, filter_insertByCpu]
    by_cases h : x.cpu_percent = q <;> simp [List.filter, h, ih]

theorem winParseLine_emit_cpu_zero {line : Str} {r : WinRec}
    (h : winParseLine line = .emit r) :
    r.cpu_percent = 0 ∧ r.memory_percent = 0 ∧ r.username = "unknown".data := by
  simp only [winParseLine] at h
  split at h
  · split at h
    · exact WinLineResult.noConfusion h
    · cases WinLineResult.emit.inj h
      exact ⟨rfl, rfl, rfl⟩
  · exact WinLineResult.noConfusion h

theorem mem_winParseLines_cpu_zero {lines : List Str} {r : WinRec}
    (h : r ∈ winParseLines lines) :
    r.cpu_percent = 0 ∧ r.memory_percent = 0 ∧ r.username = "unknown".data := by
  induction lines with
  | nil => exact absurd h (by simp [winParseLines])
  | cons line rest ih =>
    rw [winParseLines] at h
    split at h
    · exact ih h
    · exact absurd h (by simp)
    · rcases List.mem_cons.mp h with rfl | h'
      · rename_i r' heq
        exact winParseLine_emit_cpu_zero heq
      · exact ih h'

theorem procParseEntry_cpu_zero {e : ProcEntry} {r : ProcRec}
    (h : procParseEntry e = some r) :
    r.cpu_percent = 0 ∧ r.memory_percent = 0 := by
  simp only [procParseEntry] at h
  split at h
  · split at h
    · exact Option.noConfusion h
    · split at h
      · exact Option.noConfusion h
      · split at h
        · split at h
          · exact Option.noConfusion h
          · cases Option.some.inj h
            exact ⟨rfl, rfl⟩
        · exact Option.noConfusion h
  · exact Option.noConfusion h

theorem mem_get_processes_proc_cpu_zero {entries : List ProcEntry} {r : ProcRec}
    (h : r ∈ get_processes_proc entries) :
    r.cpu_percent = 0 ∧ r.memory_percent = 0 := by
  rcases List.mem_filterMap.mp h with ⟨e, _, he⟩
  exact procParseEntry_cpu_zero he

theorem pairwise_of_all_cpu_eq {α : Type} (cpu : α → ℚ) (l : List α)
    (h : ∀ r ∈ l, cpu r = 0) :
    l.Pairwise (fun a b => cpu b ≤ cpu a) := by
  induction l with
  | nil => exact List.Pairwise.nil
  | cons x xs ih =>
    refine List.pairwise_cons.mpr ⟨?_, ih (fun r hr => h r (List.mem_cons_of_mem _ hr))⟩
    intro y hy
    rw [h x (List.mem_cons_self _ _), h y (List.mem_cons_of_mem _ hy)]

/-!
## Claim C1 — sorting of `ListProcesses()`

The claim says every backend returns its records sorted descending by
`cpu_percent` with stable ties.  Only `_get_processes_psutil` sorts
(`sorted(..., reverse=True)`); the Windows and `/proc` backends emit every
record with `cpu_percent = 0.0`, so their encounter order is trivially
sorted; but `_get_processes_ps` parses real `%CPU` figures and returns the
rows unsorted, so the claim fails on that backend.
-/

/-- C1 (counterexample): the Unix `ps` backend does not sort.  On a `ps`
output whose rows carry CPU 1.0 and then 5.0, `_get_processes_ps` returns
the records in row order, which is not descending by `cpu_percent`. -/
theorem C1_counterexample :
    ¬ (get_processes_ps
        ("  PID COMM %CPU %MEM STAT USER\n    1 a 1.0 0.0 S root\n    2 b 5.0 0.0 S root").data).Pairwise
      (fun a b => b.cpu_percent ≤ a.cpu_percent) := by
  decide

/-- C1 (amended): `_get_processes_psutil` returns its records sorted
descending by `cpu_percent` and the sort is stable (records with equal
`cpu_percent` keep their encounter order, stated as: filtering the output
at any fixed `cpu_percent` value gives exactly the filtered pre-sort
encounter sequence); the Windows command-table and Linux kernel-filesystem
backends emit all records with `cpu_percent = 0.0` in encounter order,
hence trivially sorted with stable ties; the Unix `ps` backend returns
rows in encounter order without sorting (see the counterexample). -/
theorem C1_amended_sorting :
    (∀ raws : List PsutilRaw,
        (get_processes_psutil raws).Pairwise (fun a b => b.cpu_percent ≤ a.cpu_percent))
  ∧ (∀ (raws : List PsutilRaw) (q : ℚ),
        (get_processes_psutil raws).filter (fun x => decide (x.cpu_percent = q)) =
          (psutilRecords raws).filter (fun x => decide (x.cpu_percent = q)))
  ∧ (∀ lines : List Str,
        (winParseLines lines).Pairwise (fun a b => b.cpu_percent ≤ a.cpu_percent))
  ∧ (∀ entries : List ProcEntry,
        (get_processes_proc entries).Pairwise (fun a b => b.cpu_percent ≤ a.cpu_percent)) := by
  refine ⟨fun raws => pairwise_sortByCpuDesc _,
          fun raws q => filter_sortByCpuDesc q _,
          fun lines => ?_, fun entries => ?_⟩
  · exact pairwise_of_all_cpu_eq WinRec.cpu_percent _
      (fun r hr => (mem_winParseLines_cpu_zero hr).1)
  · exact pairwise_of_all_cpu_eq ProcRec.cpu_percent _
      (fun r hr => (mem_get_processes_proc_cpu_zero hr).1)

/-!
## Claim C3 — malformed `tasklist` rows

The claim says every malformed row (wrong field count, non-numeric pid,
non-numeric memory) is dropped on its own without affecting adjacent rows.
In the code only the short-row case behaves that way: a non-numeric memory
field keeps the row (memory defaulted, claim C10), and a non-numeric pid
raises `ValueError` out of the loop into the function-level handler, so
every later row is lost.
-/

/-- C3 (counterexample): a row with a non-numeric pid truncates the batch.
With a well-formed row, then a row whose pid field is `XX`, then another
well-formed row, `_get_processes_windows`' row loop returns only the first
record, although the third row parses fine on its own. -/
theorem C3_counterexample :
    winParseLines ["\"a.exe\",\"1\",\"Console\",\"1\",\"10 K\"".data,
                   "\"bad.exe\",\"XX\",\"Console\",\"1\",\"10 K\"".data,
                   "\"b.exe\",\"2\",\"Console\",\"1\",\"10 K\"".data]
      = [{ pid := 1, name := "a.exe".data, cpu_percent := 0, memory_percent := 0
         , memory_mb := 0, status := "1".data, username := "unknown".data }]
  ∧ winParseLine "\"b.exe\",\"2\",\"Console\",\"1\",\"10 K\"".data = .emit
      { pid := 2, name := "b.exe".data, cpu_percent := 0, memory_percent := 0
      , memory_mb := 0, status := "1".data, username := "unknown".data } := by
  constructor <;> decide

/-- C3 (amended): in the Windows command-table backend, a row with fewer
than five fields is dropped on its own and all other rows of the invocation
parse as if it were absent; a row with at least five fields and a numeric
pid but non-numeric memory is kept with memory defaulted (claim C10); a row
whose pid fails numeric conversion aborts the batch: the rows before it are
kept and every row after it is discarded. -/
theorem C3_amended_row_handling (pre post : List Str) (bad : Str) :
    (winParseLine bad = .skip →
        winParseLines (pre ++ bad :: post) = winParseLines (pre ++ post))
  ∧ (winParseLine bad = .abort →
        winParseLines (pre ++ bad :: post) = winParseLines pre) := by
  induction pre with
  | nil =>
    constructor
    · intro h
      simp [winParseLines, h]
    · intro h
      simp [winParseLines, h]
  | cons x xs ih =>
    constructor
    · intro h
      cases hx : winParseLine x <;> simp [winParseLines, hx, ih.1 h]
    · intro h
      cases hx : winParseLine x <;> simp [winParseLines, hx, ih.2 h]

/-- C3 (witness for the amended theorem): a one-field row between two
well-formed rows is dropped without affecting them. -/
theorem C3_amended_row_handling_witness :
    winParseLines (["\"a.exe\",\"1\",\"Console\",\"1\",\"10 K\"".data] ++
        "malformed row".data :: ["\"b.exe\",\"2\",\"Console\",\"1\",\"10 K\"".data]) =
      winParseLines (["\"a.exe\",\"1\",\"Console\",\"1\",\"10 K\"".data] ++
        ["\"b.exe\",\"2\",\"Console\",\"1\",\"10 K\"".data]) :=
  (C3_amended_row_handling ["\"a.exe\",\"1\",\"Console\",\"1\",\"10 K\"".data]
    ["\"b.exe\",\"2\",\"Console\",\"1\",\"10 K\"".data] "malformed row".data).1 (by decide)

/-!
## Claims C4, C5 — concrete backend scenarios
-/

/-- C4: the kernel-filesystem backend on a `/proc` entry `123` whose stat
file reads `123 (myproc) S ...` and whose status file contains
`VmRSS:    2048 kB` yields pid 123, name `myproc`, status `S`, resident
memory 2048 kB = 2048·1024 bytes, and `cpu_percent`/`memory_percent` 0.0. -/
theorem C4_proc_scenario :
    procParseEntry
        { dirName := "123".data
        , statContents := some "123 (myproc) S 1 0 0 0 -1 4194560".data
        , statusContents := some "Name:\tmyproc\nVmRSS:    2048 kB\nVmSwap:       0 kB".data }
      = some { pid := 123, name := "myproc".data, cpu_percent := 0, memory_percent := 0
             , memory_kb := 2048, status := "S".data, username := "unknown".data }
  ∧ (procParseEntry
        { dirName := "123".data
        , statContents := some "123 (myproc) S 1 0 0 0 -1 4194560".data
        , statusContents := some "Name:\tmyproc\nVmRSS:    2048 kB\nVmSwap:       0 kB".data }).map residentBytes
      = some (2048 * 1024) := by
  constructor <;> decide

/-- C5: the Windows command-table backend on the `tasklist` row
`"notepad.exe","1234","Console","1","10,240 K"` yields pid 1234, name
`notepad.exe` and memory 10.0 MB, the memory obtained by dividing the
kilobyte figure by 1024 and rounding to 1 decimal. -/
theorem C5_windows_scenario :
    get_processes_windows
        ("\"Image Name\",\"PID\",\"Session Name\",\"Session#\",\"Mem Usage\"\n\"notepad.exe\",\"1234\",\"Console\",\"1\",\"10,240 K\"").data
      = [{ pid := 1234, name := "notepad.exe".data, cpu_percent := 0, memory_percent := 0
         , memory_mb := 10, status := "1".data, username := "unknown".data }]
  ∧ pyRound 1 (qDiv 10240 1024) = 10 := by
  constructor <;> decide

/-!
## Claim C10 — non-numeric memory field is kept, defaulted
-/

/-- C10: in the Windows command-table backend, a row with at least five
fields and a numeric pid whose memory field fails `float` conversion is
not dropped: it is emitted with `memory_mb` defaulted to 0.0 and all other
fields taken from the row. -/
theorem C10_bad_memory_kept (line : Str) (p : Int)
    (h5 : 5 ≤ (winParts line).length)
    (hpid : pyInt? ((winParts line).getD 1 []) = some p)
    (hmem : pyFloat? (cleanMem ((winParts line).getD 4 [])) = none) :
    winParseLine line = .emit
      { pid := p
      , name := (winParts line).getD 0 []
      , cpu_percent := 0
      , memory_percent := 0
      , memory_mb := 0
      , status := if 3 < (winParts line).length then (winParts line).getD 3 [] else "unknown".data
      , username := "unknown".data } := by
  simp only [winParseLine, if_pos h5, hmem, hpid]

/-- C10 (witness): the row `"x.exe","42","Console","1","N/A"` is emitted
with memory 0.0. -/
theorem C10_bad_memory_kept_witness :
    winParseLine "\"x.exe\",\"42\",\"Console\",\"1\",\"N/A\"".data = .emit
      { pid := 42, name := "x.exe".data, cpu_percent := 0, memory_percent := 0
      , memory_mb := 0, status := "1".data, username := "unknown".data } :=
  C10_bad_memory_kept _ 42 (by decide) (by decide) (by decide)

/-!
## Claim C2 — pager invariant and clamping
-/

/-- C2: for a non-empty list and positive page size the page index stays
within `0 ≤ current ≤ (total-1) / page_size` (the lower bound is inherent
to `Nat`) under every navigation command; `next` is a no-op once the
current page's end index reaches the total, `previous` is a no-op at
index 0, `first` jumps to 0, `last` jumps to `(total-1) / page_size`; and
with 120 records and page size 50 the page count is 3 while `first`
followed by five `next` commands ends clamped at index 2. -/
theorem C2_pager_invariant (total page_size : Nat)
    (ht : 0 < total) (hp : 0 < page_size) :
    (∀ cur cmd, cur ≤ (total - 1) / page_size →
        pagerStep total page_size cur cmd ≤ (total - 1) / page_size)
  ∧ (∀ cur, total ≤ cur * page_size + page_size →
        pagerStep total page_size cur NavCmd.next = cur)
  ∧ (pagerStep total page_size 0 NavCmd.previous = 0)
  ∧ (∀ cur, pagerStep total page_size cur NavCmd.first = 0)
  ∧ (∀ cur, pagerStep total page_size cur NavCmd.last = (total - 1) / page_size)
  ∧ (pageCount 120 50 = 3
     ∧ List.foldl (pagerStep 120 50) (pagerStep 120 50 0 NavCmd.first)
         [NavCmd.next, NavCmd.next, NavCmd.next, NavCmd.next, NavCmd.next] = 2
     ∧ (120 - 1) / 50 = 2) := by
  refine ⟨?_, ?_, ?_, fun cur => rfl, fun cur => rfl, by decide, by decide, by decide⟩
  · intro cur cmd hcur
    cases cmd with
    | next =>
      simp only [pagerStep]
      split
      · rename_i hlt
        rw [Nat.le_div_iff_mul_le hp, Nat.succ_mul]
        exact Nat.le_pred_of_lt hlt
      · exact hcur
    | previous =>
      simp only [pagerStep]
      split
      · exact le_trans (Nat.sub_le cur 1) hcur
      · exact hcur
    | first => exact Nat.zero_le _
    | last => exact Nat.le_refl _
    | other => exact hcur
  · intro cur hge
    simp only [pagerStep, if_neg (not_lt.mpr hge)]
  · simp [pagerStep]

/-- C2 (witness): with 120 records and page size 50, `first` then five
`next` commands end at page index 2. -/
theorem C2_pager_invariant_witness :
    List.foldl (pagerStep 120 50) (pagerStep 120 50 0 NavCmd.first)
      [NavCmd.next, NavCmd.next, NavCmd.next, NavCmd.next, NavCmd.next] = 2 :=
  (C2_pager_invariant 120 50 (by decide) (by decide)).2.2.2.2.2.2.1

/-!
## Claim C6 — populated pid/name and zero defaults

The rich backend defaults a missing or empty name to `'Unknown'` and its
numeric fields to 0, but the fallback backends copy the name field
verbatim from the OS output, so an empty name field yields a record with
an empty name.
-/

theorem orElseStr_ne_nil (x : Option Str) (d : Str) (hd : d ≠ []) :
    orElseStr x d ≠ [] := by
  cases x with
  | none => exact hd
  | some s =>
    rw [orElseStr]
    split
    · exact hd
    · rename_i hs
      simpa using hs

theorem mem_sortByCpuDesc {y : PsutilRec} {l : List PsutilRec} :
    y ∈ sortByCpuDesc l ↔ y ∈ l := by
  induction l with
  | nil => simp [sortByCpuDesc]
  | cons x xs ih => simp [sortByCpuDesc, mem_insertByCpu, ih]

/-- C6 (counterexample): the Windows command-table backend copies the name
field verbatim, so a row whose first field is the empty quoted string
yields a record whose name is empty — pid and name are not always
populated with non-empty values. -/
theorem C6_counterexample :
    winParseLines ["\"\",\"42\",\"Console\",\"1\",\"10 K\"".data]
      = [{ pid := 42, name := [], cpu_percent := 0, memory_percent := 0
         , memory_mb := 0, status := "1".data, username := "unknown".data }] := by
  decide

theorem winParseLine_emit_memory_default {line : Str} {r : WinRec}
    (h : winParseLine line = .emit r)
    (hmem : pyFloat? (cleanMem ((winParts line).getD 4 [])) = none) :
    r.memory_mb = 0 := by
  simp only [winParseLine, hmem] at h
  split at h
  · split at h
    · exact WinLineResult.noConfusion h
    · cases WinLineResult.emit.inj h
      rfl
  · exact WinLineResult.noConfusion h

theorem procParseEntry_memory_default {e : ProcEntry} {r : ProcRec}
    (h : procParseEntry e = some r) (hs : e.statusContents = none) :
    r.memory_kb = 0 := by
  simp only [procParseEntry, hs] at h
  split at h
  · split at h
    · exact Option.noConfusion h
    · split at h
      · exact Option.noConfusion h
      · split at h
        · cases Option.some.inj h
          rfl
        · exact Option.noConfusion h
  · exact Option.noConfusion h

/-- C6 (amended): every record of the rich backend has a non-empty name —
`'Unknown'` exactly when psutil omits the name or reports an empty one —
and zero-defaulted numeric fields: `memory_percent` is 0.0 when psutil
reports `None`, `rss`/`vms` are 0 when `memory_info` is `None`, and
`cpu_percent` is 0.0 when neither CPU source supplies a value.  The
Windows backend emits `cpu_percent = memory_percent = 0.0` and the
username default on every record, and defaults `memory_mb` to 0.0 when
the memory field fails conversion; the kernel-filesystem backend emits
`cpu_percent = memory_percent = 0.0` on every record and defaults
`memory_kb` to 0 when the status file is unavailable.  The fallback
backends however copy the name verbatim from the OS output and can
produce an empty name (see the counterexample). -/
theorem C6_amended_field_defaults :
    (∀ (raws : List PsutilRaw) (r : PsutilRec),
        r ∈ get_processes_psutil raws → r.name ≠ [])
  ∧ (∀ raw : PsutilRaw, raw.name = none ∨ raw.name = some [] →
        (psutilRecordOf raw).name = "Unknown".data)
  ∧ (∀ raw : PsutilRaw, raw.memory_percent = none →
        (psutilRecordOf raw).memory_percent = 0)
  ∧ (∀ raw : PsutilRaw, raw.memory_info = none →
        (psutilRecordOf raw).rss = 0 ∧ (psutilRecordOf raw).vms = 0)
  ∧ (∀ raw : PsutilRaw, raw.cpu_percent_info = none → raw.cpu_percent_call = 0 →
        (psutilRecordOf raw).cpu_percent = 0)
  ∧ (∀ (lines : List Str) (r : WinRec), r ∈ winParseLines lines →
        r.cpu_percent = 0 ∧ r.memory_percent = 0 ∧ r.username = "unknown".data)
  ∧ (∀ (line : Str) (r : WinRec), winParseLine line = .emit r →
        pyFloat? (cleanMem ((winParts line).getD 4 [])) = none → r.memory_mb = 0)
  ∧ (∀ (entries : List ProcEntry) (r : ProcRec), r ∈ get_processes_proc entries →
        r.cpu_percent = 0 ∧ r.memory_percent = 0)
  ∧ (∀ (e : ProcEntry) (r : ProcRec), procParseEntry e = some r →
        e.statusContents = none → r.memory_kb = 0) := by
  refine ⟨?_, ?_, ?_, ?_, ?_,
          fun lines r h => mem_winParseLines_cpu_zero h,
          fun line r h hmem => winParseLine_emit_memory_default h hmem,
          fun entries r h => mem_get_processes_proc_cpu_zero h,
          fun e r h hs => procParseEntry_memory_default h hs⟩
  · intro raws r hr
    rcases List.mem_filterMap.mp (mem_sortByCpuDesc.mp hr) with ⟨raw, _, hmk⟩
    split at hmk
    · cases Option.some.inj hmk
      exact orElseStr_ne_nil _ _ (by decide)
    · exact Option.noConfusion hmk
  · intro raw h
    rcases h with h | h <;> simp [psutilRecordOf, orElseStr, h]
  · intro raw h
    simp only [psutilRecordOf, h]
    decide
  · intro raw h
    simp [psutilRecordOf, h]
  · intro raw h1 h2
    simp [psutilRecordOf, h1, h2]

/-- A concrete raw psutil process where every optional source is missing,
for the C6 witness. -/
def psutilRawSample : PsutilRaw :=
  { ok := true, pid := 7, name := none, cpu_percent_info := none
  , cpu_percent_call := 0, memory_percent := none, status := none
  , username := none, num_threads := none, memory_info := none
  , nice := none, create_time := 0, cmdline := [] }

/-- C6 (witness for the amended theorem): when psutil supplies no name, no
memory percent, no memory info and no CPU figure, the record carries the
`'Unknown'` name and the zero defaults. -/
theorem C6_amended_field_defaults_witness :
    (psutilRecordOf psutilRawSample).name = "Unknown".data
  ∧ (psutilRecordOf psutilRawSample).memory_percent = 0
  ∧ (psutilRecordOf psutilRawSample).rss = 0
  ∧ (psutilRecordOf psutilRawSample).vms = 0
  ∧ (psutilRecordOf psutilRawSample).cpu_percent = 0 :=
  ⟨C6_amended_field_defaults.2.1 psutilRawSample (Or.inl rfl),
   C6_amended_field_defaults.2.2.1 psutilRawSample rfl,
   (C6_amended_field_defaults.2.2.2.1 psutilRawSample rfl).1,
   (C6_amended_field_defaults.2.2.2.1 psutilRawSample rfl).2,
   C6_amended_field_defaults.2.2.2.2.1 psutilRawSample rfl rfl⟩

/-!
## Claim C7 — absent snapshot fields in the fallback collector
-/

/-- C7 (counterexample): `cpu_cores_logical` is
`os.cpu_count() or 'unknown'`: when the core count cannot be determined
the key is still present, holding the placeholder string `'unknown'`
rather than being absent from the snapshot. -/
theorem C7_counterexample :
    get_system_info_fallback
        { system := "Linux".data, platformStr := "Linux-x86".data
        , architecture := "64bit".data, kind := SysKind.linux
        , os_cpu_count := none, meminfo := none, loadavg := none
        , vm_stat_rc := none, wmic := none }
      = some { system := "Linux".data, platformStr := "Linux-x86".data
             , architecture := "64bit".data
             , cpu_cores_logical := CpuCoresVal.unknownTag } := by
  decide

/-- C7 (amended): in the fallback system collector a field whose
pseudo-file read fails (`OSError`) or whose command reports failure is
absent (`none`) from the snapshot — memory figures without a readable
`/proc/meminfo`, load average without a readable `/proc/loadavg`,
`vm_stat_available` on a failing `vm_stat`, total memory on a failing
`wmic` — except that `cpu_cores_logical` is always present and holds the
placeholder `'unknown'` when the core count cannot be determined. -/
theorem C7_amended_absent_fields (r : FallbackRaw) (s : FallbackSnapshot)
    (h : get_system_info_fallback r = some s) :
    (r.kind = SysKind.linux → r.meminfo = none →
        s.memory_total_gb = none ∧ s.memory_available_gb = none)
  ∧ (r.kind = SysKind.linux → r.loadavg = none → s.load_average = none)
  ∧ (r.kind = SysKind.darwin → ∀ rc, r.vm_stat_rc = some rc → rc ≠ 0 →
        s.vm_stat_available = none)
  ∧ (r.kind = SysKind.windows → ∀ rc out, r.wmic = some (rc, out) → rc ≠ 0 →
        s.memory_total_gb = none)
  ∧ (r.os_cpu_count = none → s.cpu_cores_logical = CpuCoresVal.unknownTag) := by
  simp only [get_system_info_fallback] at h
  cases hk : r.kind
  case linux =>
    simp only [hk] at h
    refine ⟨fun _ hm => ?_, fun _ hl => ?_,
            fun hkk => absurd hkk (by decide),
            fun hkk => absurd hkk (by decide),
            fun hc => ?_⟩
    · simp only [hm] at h
      cases hl : r.loadavg with
      | none =>
        simp only [hl] at h
        cases Option.some.inj h
        exact ⟨rfl, rfl⟩
      | some txt =>
        simp only [hl] at h
        cases hload : linuxLoadAvg txt with
        | none =>
          simp only [hload] at h
          exact Option.noConfusion h
        | some l =>
          simp only [hload] at h
          cases Option.some.inj h
          exact ⟨rfl, rfl⟩
    · cases hm : r.meminfo with
      | none =>
        simp only [hm, hl] at h
        cases Option.some.inj h
        rfl
      | some txt =>
        simp only [hm] at h
        cases hloop : linuxMemInfoLoop (splitNl txt) (none, none) with
        | none =>
          simp only [hloop] at h
          exact Option.noConfusion h
        | some p =>
          simp only [hloop, hl] at h
          cases Option.some.inj h
          rfl
    · cases hm : r.meminfo with
      | none =>
        simp only [hm] at h
        cases hl : r.loadavg with
        | none =>
          simp only [hl] at h
          cases Option.some.inj h
          simp [hc]
        | some txt =>
          simp only [hl] at h
          cases hload : linuxLoadAvg txt with
          | none =>
            simp only [hload] at h
            exact Option.noConfusion h
          | some l =>
            simp only [hload] at h
            cases Option.some.inj h
            simp [hc]
      | some txt =>
        simp only [hm] at h
        cases hloop : linuxMemInfoLoop (splitNl txt) (none, none) with
        | none =>
          simp only [hloop] at h
          exact Option.noConfusion h
        | some p =>
          simp only [hloop] at h
          cases hl : r.loadavg with
          | none =>
            simp only [hl] at h
            cases Option.some.inj h
            simp [hc]
          | some txt2 =>
            simp only [hl] at h
            cases hload : linuxLoadAvg txt2 with
            | none =>
              simp only [hload] at h
              exact Option.noConfusion h
            | some l =>
              simp only [hload] at h
              cases Option.some.inj h
              simp [hc]
  case darwin =>
    simp only [hk] at h
    refine ⟨fun hkk => absurd hkk (by decide),
            fun hkk => absurd hkk (by decide),
            fun _ rc hrc hrc0 => ?_,
            fun hkk => absurd hkk (by decide),
            fun hc => ?_⟩
    · simp only [hrc, if_neg hrc0] at h
      cases Option.some.inj h
      rfl
    · cases hrc : r.vm_stat_rc with
      | none =>
        simp only [hrc] at h
        exact Option.noConfusion h
      | some rc =>
        simp only [hrc] at h
        by_cases h0 : rc = 0
        · rw [if_pos h0] at h
          cases Option.some.inj h
          simp [hc]
        · rw [if_neg h0] at h
          cases Option.some.inj h
          simp [hc]
  case windows =>
    simp only [hk] at h
    refine ⟨fun hkk => absurd hkk (by decide),
            fun hkk => absurd hkk (by decide),
            fun hkk => absurd hkk (by decide),
            fun _ rc out hw hrc0 => ?_,
            fun hc => ?_⟩
    · simp only [hw, if_neg hrc0] at h
      cases Option.some.inj h
      rfl
    · cases hw : r.wmic with
      | none =>
        simp only [hw] at h
        exact Option.noConfusion h
      | some p =>
        simp only [hw] at h
        by_cases h0 : p.1 = 0
        · rw [if_pos h0] at h
          cases hloop : wmicLoop (splitNl p.2) none with
          | none =>
            simp only [hloop] at h
            exact Option.noConfusion h
          | some mt =>
            simp only [hloop] at h
            cases Option.some.inj h
            simp [hc]
        · rw [if_neg h0] at h
          cases Option.some.inj h
          simp [hc]
  case other =>
    simp only [hk] at h
    cases Option.some.inj h
    refine ⟨fun hkk => absurd hkk (by decide),
            fun hkk => absurd hkk (by decide),
            fun hkk => absurd hkk (by decide),
            fun hkk => absurd hkk (by decide),
            fun hc => ?_⟩
    simp [hc]

/-- C7 (witness for the amended theorem): a Linux fallback run where both
pseudo-files are unreadable and the core count is unknown yields a
snapshot with the memory figures absent. -/
theorem C7_amended_absent_fields_witness :
    ({ system := "Linux".data, platformStr := "Linux-x86".data
     , architecture := "64bit".data
     , cpu_cores_logical := CpuCoresVal.unknownTag } : FallbackSnapshot).memory_total_gb = none
  ∧ ({ system := "Linux".data, platformStr := "Linux-x86".data
     , architecture := "64bit".data
     , cpu_cores_logical := CpuCoresVal.unknownTag } : FallbackSnapshot).memory_available_gb = none :=
  (C7_amended_absent_fields
      { system := "Linux".data, platformStr := "Linux-x86".data
      , architecture := "64bit".data, kind := SysKind.linux
      , os_cpu_count := none, meminfo := none, loadavg := none
      , vm_stat_rc := none, wmic := none } _ (by decide)).1 rfl rfl

/-!
## Claim C8 — footer counts are session-wide
-/

/-- C8: the `CPU Intensive` and `Memory Intensive` footer counts of a
rendered page are computed over the whole stored record list, not the
visible slice: they are identical for every page index of the same list
and equal the counts over the entire list. -/
theorem C8_counts_over_full_list (processes : List DispRec) (page_size p q : Nat) :
    ((renderPage processes page_size p).cpuIntensive =
        (renderPage processes page_size q).cpuIntensive)
  ∧ ((renderPage processes page_size p).memIntensive =
        (renderPage processes page_size q).memIntensive)
  ∧ (renderPage processes page_size p).cpuIntensive =
      processes.countP (fun x => decide ((10 : ℚ) < x.cpu_percent))
  ∧ (renderPage processes page_size p).memIntensive =
      processes.countP (fun x => decide ((10 : ℚ) < x.memory_percent)) :=
  ⟨rfl, rfl, rfl, rfl⟩

/-!
## Claim C9 — deterministic snapshot normalisation
-/

/-- C9: `_get_system_info_psutil` is a pure normalisation of the raw
backend data — two calls against identical raw data (core counts,
memory/swap figures, process statuses, boot time) produce identical
snapshots. -/
theorem C9_snapshot_deterministic (r₁ r₂ : SysRaw) (h : r₁ = r₂) :
    get_system_info_psutil r₁ = get_system_info_psutil r₂ := by
  rw [h]

/-- A concrete raw system sample for the C9 witness. -/
def sysRawSample : SysRaw :=
  { cpu_count := some 4, cpu_count_logical := some 8, cpu_percent := 12
  , mem_total := 17179869184, mem_used := 8589934592, mem_percent := 50
  , swap_total := 2147483648, swap_used := 0, swap_percent := 0
  , pids := [1, 2, 3]
  , iter_statuses := [some "running".data, some "sleeping".data, some "sleeping".data]
  , boot_time_str := "2026-01-01 00:00:00".data
  , system := "Linux".data, platformStr := "Linux-x86".data
  , architecture := "64bit".data }

/-- C9 (witness): two calls on the same concrete raw sample coincide. -/
theorem C9_snapshot_deterministic_witness :
    get_system_info_psutil sysRawSample = get_system_info_psutil sysRawSample :=
  C9_snapshot_deterministic sysRawSample sysRawSample rfl

end PsDs
